import Mathlib

/-!
Verification of the training-run orchestration engine of `train.py`
(repository `ai612-project2-2023`).

The embedding models the control flow of `main`, `train`, `validate` and
`get_valid_stats` from `src/train.py`.  The collaborator modules that
`train.py` imports (`trainer`, `checkpoint_utils`, `loggings.metrics`, ...)
are not part of the repository; where a claim depends on them, the
corresponding definition is modelled from the specification and marked as
such in its doc comment.
-/

/-- Python runtime errors that the modelled control flow can raise. -/
inductive PyError
  | keyError
  | typeError
  | indexError
  | unboundLocalError
deriving DecidableEq

/-- A Python value as far as the orchestrator inspects it: either a plain
number (e.g. a float statistic) or a list of numbers.  Numbers are modelled
with rationals; every operation the code performs on them (`max`,
comparison, subscripting) is exact. -/
inductive Val
  | float (q : ℚ)
  | vlist (l : List ℚ)
deriving DecidableEq

/-- Python `v[0]`: element 0 of a list; a `TypeError` on a plain number
(not subscriptable); an `IndexError` on an empty list. -/
def subscript0 : Val → Except PyError ℚ
  | .float _ => .error .typeError
  | .vlist l =>
    match l.head? with
    | some q => .ok q
    | none => .error .indexError

/-- A Python dict of statistics, keyed by stat name (insertion ordered). -/
abbrev Stats := List (String × Val)

/-- Python `stats[k]` (read): `KeyError` when the key is absent. -/
def statsLookup (stats : Stats) (k : String) : Except PyError Val :=
  match stats.lookup k with
  | some v => .ok v
  | none => .error .keyError

/-- Python `stats[k] = v` (write): replace the existing binding or append a
new one. -/
def statsSet : Stats → String → Val → Stats
  | [], k, v => [(k, v)]
  | (k', v') :: rest, k, v =>
    if k' = k then (k, v) :: rest else (k', v') :: statsSet rest k v

/-- Python `max(v, q)` where `q` is a number: fine when `v` is a number,
`TypeError` when `v` is a list (numbers and lists are not comparable). -/
def pyMax (v : Val) (q : ℚ) : Except PyError ℚ :=
  match v with
  | .float x => .ok (max x q)
  | .vlist _ => .error .typeError

/-- `get_valid_stats` from `src/train.py` (lines 449-468).
`best` models the function attribute `get_valid_stats.best`: `none` means
the attribute does not exist yet (fresh process), in which case the code
initializes it to `0`.  Returns the updated stats dict (with
`"num_updates"` and `"best_auroc"` set) together with the new value of the
attribute. -/
def get_valid_stats (best : Option ℚ) (numUpdates : Nat) (stats : Stats) :
    Except PyError (Stats × ℚ) :=
  let stats1 := statsSet stats "num_updates" (.float (numUpdates : ℚ))
  match statsLookup stats1 "auroc" with
  | .error e => .error e
  | .ok auroc =>
    match pyMax auroc (best.getD 0) with
    | .error e => .error e
    | .ok newBest => .ok (statsSet stats1 "best_auroc" (.float newBest), newBest)

/-- The new best score reported by one `get_valid_stats` call. -/
def gvsBest (best : Option ℚ) (numUpdates : Nat) (stats : Stats) :
    Except PyError ℚ :=
  (get_valid_stats best numUpdates stats).map Prod.snd

/-- `validate` from `src/train.py` (lines 398-447), after the validation
pass: `smoothed` is the aggregated validation stats returned by
`agg.get_smoothed_values()` (the `loggings.metrics` module is not in the
repository; per the spec an empty validation pass yields an empty mapping).
The function updates the stats through `get_valid_stats` and returns
`stats["auroc"]` together with the new best score. -/
def validate (best : Option ℚ) (numUpdates : Nat) (smoothed : Stats) :
    Except PyError (Val × ℚ) :=
  match get_valid_stats best numUpdates smoothed with
  | .error e => .error e
  | .ok (stats, newBest) =>
    match statsLookup stats "auroc" with
    | .error e => .error e
    | .ok ret => .ok (ret, newBest)

/-- Successive `get_valid_stats` calls on auroc values `qs`, starting from
the attribute state `best` (the dict passed to each call holds that call's
`"auroc"` value); returns the `best_auroc` value reported by each call. -/
def validSeq : Option ℚ → List ℚ → List ℚ
  | _, [] => []
  | best, q :: qs =>
    match get_valid_stats best 0 [("auroc", .float q)] with
    | .ok (_, b) => b :: validSeq (some b) qs
    | .error _ => []

/-- The running maximum of the values seen so far, as the spec words it
(reference definition for the refinement comparison). -/
def specRunningMax : List ℚ → List ℚ
  | [] => []
  | q :: qs => q :: (specRunningMax qs).map (fun x => max q x)

/-- Observable events emitted by one epoch of `train` (src/train.py lines
354-392), in program order of one worker. -/
inductive Event
  | logInner (step : Nat)
  | resetMeters (name : String)
  | validateCall (epoch : Nat)
  | saveCheckpointCall (epoch : Nat)
  | barrier
  | printTrain (epoch : Nat)
deriving DecidableEq

/-- The trainer/metrics state the epoch loop reads and writes:
`numUpdates` is `trainer.get_num_updates()`; `trainInner` is the list of
update ids whose per-step scalars are currently accumulated in the
`"train_inner"` metrics context; `validLoss` is the Python local
`valid_loss` of `train` (`none` = still unbound). -/
structure TrainState where
  numUpdates : Nat
  trainInner : List Nat
  validLoss : Option Val
deriving DecidableEq

/-- What one batch does inside `trainer.train_step`: either the skip
sentinel (`None`: OOM / overflow / NaN) or a successful step, carrying the
`"auroc"` statistic that the subsequent `validate` call of that iteration
returns. -/
inductive StepOutcome
  | skip
  | ok (validRet : Val)
deriving DecidableEq

/-- Modelled from the spec: `trainer.Trainer.train_step` (the `trainer`
module is not in the repository).  On success it increments `num_updates`,
logs the step's scalars into the active `"train_inner"` context and returns
a log-output mapping; on an OOM/overflow/NaN event it returns the skip
sentinel `None`, leaving `num_updates` and the logged meters unchanged.
The returned Bool is `log_output is not None`. -/
def train_step (st : TrainState) (o : StepOutcome) : TrainState × Bool :=
  match o with
  | .skip => (st, false)
  | .ok _ =>
    ({ st with
        numUpdates := st.numUpdates + 1
        trainInner := st.trainInner ++ [st.numUpdates + 1] }, true)

/-- One iteration of the `for i, samples in enumerate(progress)` body of
`train` (src/train.py lines 358-383): run `train_step`; when its log output
is not `None`, emit the mid-epoch log and reset `"train_inner"` if the new
`num_updates` is divisible by `log_interval`, then call `validate`, then
`save_checkpoint`, then `torch.distributed.barrier()` when distributed is
initialized.  When the step was skipped, nothing else happens. -/
def trainLoopBody (li epoch : Nat) (distInit : Bool) (st : TrainState)
    (o : StepOutcome) : TrainState × List Event :=
  let stepped := train_step st o
  match o with
  | .skip => (stepped.1, [])
  | .ok v =>
    let st1 := stepped.1
    let nu := st1.numUpdates
    let doLog := nu % li == 0
    let afterLog : TrainState :=
      if doLog then { st1 with trainInner := [] } else st1
    let logEvs : List Event :=
      if doLog then [.logInner nu, .resetMeters "train_inner"] else []
    ({ afterLog with validLoss := some v },
      logEvs ++ [.validateCall epoch, .saveCheckpointCall epoch]
        ++ (if distInit then [.barrier] else []))

/-- The whole batch loop of `train`, folded over the epoch's batches. -/
def trainLoop (li epoch : Nat) (distInit : Bool) :
    TrainState → List StepOutcome → TrainState × List Event
  | st, [] => (st, [])
  | st, o :: rest =>
    let (st1, evs) := trainLoopBody li epoch distInit st o
    let (st2, evs2) := trainLoop li epoch distInit st1 rest
    (st2, evs ++ evs2)

/-- One full call of `train` (src/train.py lines 354-392): the batch loop,
then the end-of-epoch `progress.print(stats, tag="train", ...)`, then
`metrics.reset_meters("train")`, then `return valid_loss` — which raises
`UnboundLocalError` when no iteration assigned `valid_loss`. -/
def trainEpoch (li epoch : Nat) (distInit : Bool) (st : TrainState)
    (batches : List StepOutcome) :
    TrainState × List Event × Except PyError Val :=
  let (st1, evs) := trainLoop li epoch distInit st batches
  let evs2 := evs ++ [.printTrain epoch, .resetMeters "train"]
  match st1.validLoss with
  | some v => (st1, evs2, .ok v)
  | none => (st1, evs2, .error .unboundLocalError)

/-- Number of non-skipped steps among the epoch's batches. -/
def numOk : List StepOutcome → Nat
  | [] => 0
  | .skip :: rest => numOk rest
  | .ok _ :: rest => numOk rest + 1

/-- The `validate` return value of the last non-skipped step (the value the
last assignment leaves in `valid_loss`). -/
def lastOkVal : List StepOutcome → Option Val
  | [] => none
  | o :: rest =>
    match lastOkVal rest with
    | some v => some v
    | none => match o with | .skip => none | .ok v => some v

/-- The value `main` hands to `trainer.lr_step` for one epoch
(src/train.py lines 318-320): `valid_losses` is `train`'s return value and
`main` passes `valid_losses[0]`. -/
def lrStepArg (li epoch : Nat) (distInit : Bool) (st : TrainState)
    (batches : List StepOutcome) : Except PyError ℚ :=
  match (trainEpoch li epoch distInit st batches).2.2 with
  | .error e => .error e
  | .ok v => subscript0 v

/-- Checks that every `logInner` event is immediately followed by a
`resetMeters "train_inner"` event. -/
def goodLog : List Event → Bool
  | [] => true
  | .logInner _ :: rest =>
    match rest with
    | .resetMeters s :: _ => s == "train_inner" && goodLog rest
    | _ => false
  | _ :: rest => goodLog rest

/-- True exactly on end-of-epoch summary events. -/
def isPrintTrain : Event → Bool
  | .printTrain _ => true
  | _ => false

/-- True exactly on mid-epoch log events. -/
def isLogInner : Event → Bool
  | .logInner _ => true
  | _ => false

/-- True exactly on `validate` call events. -/
def isValidateCall : Event → Bool
  | .validateCall _ => true
  | _ => false

/-- True exactly on `save_checkpoint` call events. -/
def isSaveCall : Event → Bool
  | .saveCheckpointCall _ => true
  | _ => false

/-- Adjacency discipline for checkpoint writes: a `saveCheckpointCall` is
immediately preceded by a `validateCall` and immediately followed by a
`barrier`. -/
def savePairOK (a b : Event) : Bool :=
  (match b with
    | .saveCheckpointCall _ =>
      (match a with | .validateCall _ => true | _ => false)
    | _ => true)
  && (match a with
    | .saveCheckpointCall _ =>
      (match b with | .barrier => true | _ => false)
    | _ => true)

/-- True on every event that is not a `saveCheckpointCall`. -/
def notSave : Event → Bool
  | .saveCheckpointCall _ => false
  | _ => true

/-- The ordering the claim asserts, as a scan over the event trace: every
`saveCheckpointCall` must come after some `barrier` that itself comes after
some `validateCall`.  `seenV` records whether a `validateCall` has occurred,
`okSave` whether a `barrier` has occurred after a `validateCall`. -/
def saveGuarded : Bool → Bool → List Event → Bool
  | _, _, [] => true
  | _, okSave, .validateCall _ :: rest => saveGuarded true okSave rest
  | seenV, okSave, .barrier :: rest => saveGuarded seenV (okSave || seenV) rest
  | seenV, okSave, .saveCheckpointCall _ :: rest =>
    okSave && saveGuarded seenV okSave rest
  | seenV, okSave, _ :: rest => saveGuarded seenV okSave rest

/-- The Run snapshot a checkpoint persists (spec data model: `epoch`,
`num_updates`, `best_score`). -/
structure RunSnapshot where
  epoch : Nat
  numUpdates : Nat
  bestScore : ℚ
deriving DecidableEq

/-- A field value in a serialized checkpoint file. -/
inductive CkptVal
  | nat (n : Nat)
  | rat (q : ℚ)
deriving DecidableEq

/-- Modelled from the spec: `checkpoint_utils.save_checkpoint`'s persisted
snapshot (the `checkpoint_utils` module is not in the repository) — the
serialized checkpoint contains the epoch index, the update count and the
best score. -/
def save_checkpoint (r : RunSnapshot) : List (String × CkptVal) :=
  [("epoch", .nat r.epoch), ("num_updates", .nat r.numUpdates),
    ("best_score", .rat r.bestScore)]

/-- Modelled from the spec: `checkpoint_utils.load_checkpoint` (the
`checkpoint_utils` module is not in the repository) — restores a Run
snapshot from the persisted fields; fails on a missing or ill-typed
field. -/
def load_checkpoint (s : List (String × CkptVal)) : Option RunSnapshot :=
  match s.lookup "epoch", s.lookup "num_updates", s.lookup "best_score" with
  | some (.nat e), some (.nat nu), some (.rat bs) => some ⟨e, nu, bs⟩
  | _, _, _ => none

/-- The epoch loop of `main` (src/train.py lines 315-321): `epoch_idx`
starts at 1 and the loop body (`train` followed by `trainer.lr_step`) never
updates it.  `body epoch` is the outcome of one loop body (`.error` models
an uncaught exception aborting the run).  Returns `(some true, trained)`
when the loop exits normally ("done training" is reached), `(some false,
trained)` when the body raised, and `(none, trained)` when `fuel` body
executions were exhausted with the loop still running; `trained` lists the
epoch indices passed to `train`, in order. -/
def mainLoop (maxEpoch : Nat) (body : Nat → Except PyError Unit) :
    Nat → Nat → Option Bool × List Nat
  | 0, _ => (none, [])
  | fuel + 1, epochIdx =>
    if epochIdx ≤ maxEpoch then
      match body epochIdx with
      | .ok _ =>
        let (r, es) := mainLoop maxEpoch body fuel epochIdx
        (r, epochIdx :: es)
      | .error _ => (some false, [epochIdx])
    else (some true, [])

/-! ### Helper lemmas -/

lemma validSeq_cons (best : Option ℚ) (q : ℚ) (qs : List ℚ) :
    validSeq best (q :: qs) =
      max q (best.getD 0) :: validSeq (some (max q (best.getD 0))) qs := by
  simp [validSeq, get_valid_stats, statsSet, statsLookup, pyMax, List.lookup]

lemma validSeq_none (qs : List ℚ) : validSeq none qs = validSeq (some 0) qs := by
  cases qs with
  | nil => rfl
  | cons q qs => rw [validSeq_cons, validSeq_cons]; rfl

lemma validSeq_some_cons (b q : ℚ) (qs : List ℚ) :
    validSeq (some b) (q :: qs) = max q b :: validSeq (some (max q b)) qs := by
  rw [validSeq_cons]; rfl

lemma validSeq_some_eq_map (qs : List ℚ) : ∀ b : ℚ,
    validSeq (some b) qs = (specRunningMax qs).map (fun x => max x b) := by
  induction qs with
  | nil => intro b; simp [validSeq, specRunningMax]
  | cons q qs ih =>
    intro b
    rw [validSeq_some_cons, specRunningMax]
    simp only [List.map_cons, List.map_map, ih]
    refine List.cons_eq_cons.mpr ⟨rfl, ?_⟩
    apply List.map_congr_left
    intro x _
    simp only [Function.comp_apply]
    rw [max_comm q x, max_assoc]

lemma specRunningMax_nonneg {qs : List ℚ} (h : ∀ x ∈ qs, 0 ≤ x) :
    ∀ y ∈ specRunningMax qs, 0 ≤ y := by
  induction qs with
  | nil => simp [specRunningMax]
  | cons q qs ih =>
    intro y hy
    simp only [specRunningMax, List.mem_cons, List.mem_map] at hy
    rcases hy with rfl | ⟨x, hx, rfl⟩
    · exact h _ (List.mem_cons_self _ _)
    · exact le_trans (ih (fun z hz => h z (List.mem_cons_of_mem _ hz)) x hx)
        (le_max_right _ _)

lemma validSeq_chain (qs : List ℚ) : ∀ b : ℚ,
    List.Chain' (· ≤ ·) (validSeq (some b) qs) := by
  induction qs with
  | nil => intro b; simp [validSeq]
  | cons q qs ih =>
    intro b
    rw [validSeq_some_cons]
    rcases qs with _ | ⟨q', qs'⟩
    · simp [validSeq]
    · rw [validSeq_some_cons]
      rw [List.chain'_cons]
      refine ⟨le_max_right _ _, ?_⟩
      rw [← validSeq_some_cons]
      exact ih _

lemma statsSet_lookup_ne (s : Stats) (k k' : String) (v : Val) (h : k ≠ k') :
    (statsSet s k' v).lookup k = s.lookup k := by
  induction s with
  | nil =>
    have : (k == k') = false := by simp [h]
    simp [statsSet, List.lookup, this]
  | cons kv rest ih =>
    obtain ⟨k'', v''⟩ := kv
    by_cases hk : k'' = k'
    · subst hk
      simp only [statsSet, if_pos rfl, List.lookup]
      have : (k == k'') = false := by simp [h]
      simp [this]
    · simp only [statsSet, if_neg hk, List.lookup]
      by_cases hkk : k == k''
      · simp [hkk]
      · simp only [hkk]
        exact ih

lemma lastOkVal_none_iff (batches : List StepOutcome) :
    lastOkVal batches = none ↔ numOk batches = 0 := by
  induction batches with
  | nil => simp [lastOkVal, numOk]
  | cons o rest ih =>
    cases o with
    | skip =>
      simp only [lastOkVal, numOk]
      cases h : lastOkVal rest with
      | none => simpa [h] using ih
      | some v => simp [h, ← ih]
    | ok v =>
      simp only [lastOkVal, numOk]
      cases h : lastOkVal rest with
      | none => simp
      | some w => simp

lemma trainLoop_validLoss (li epoch : Nat) (d : Bool) (batches : List StepOutcome) :
    ∀ st : TrainState,
      (trainLoop li epoch d st batches).1.validLoss =
        ((lastOkVal batches).elim st.validLoss some) := by
  induction batches with
  | nil => intro st; simp [trainLoop, lastOkVal]
  | cons o rest ih =>
    intro st
    cases o with
    | skip =>
      simp only [trainLoop, trainLoopBody, train_step]
      rw [ih]
      simp only [lastOkVal]
      cases lastOkVal rest <;> simp
    | ok v =>
      simp only [trainLoop, trainLoopBody, train_step]
      rw [ih]
      simp only [lastOkVal]
      cases lastOkVal rest <;> simp

lemma trainLoop_count_validate (li epoch : Nat) (d : Bool)
    (batches : List StepOutcome) : ∀ st : TrainState,
    ((trainLoop li epoch d st batches).2.countP isValidateCall) = numOk batches := by
  induction batches with
  | nil => intro st; simp [trainLoop, numOk]
  | cons o rest ih =>
    intro st
    cases o with
    | skip => simpa [trainLoop, trainLoopBody, train_step, numOk] using ih _
    | ok v =>
      cases hc : (st.numUpdates + 1) % li == 0 <;> cases d <;>
        simp [trainLoop, trainLoopBody, train_step, numOk, hc,
          List.countP_append, List.countP_cons, isValidateCall, ih _]

lemma trainLoop_count_save (li epoch : Nat) (d : Bool)
    (batches : List StepOutcome) : ∀ st : TrainState,
    ((trainLoop li epoch d st batches).2.countP isSaveCall) = numOk batches := by
  induction batches with
  | nil => intro st; simp [trainLoop, numOk]
  | cons o rest ih =>
    intro st
    cases o with
    | skip => simpa [trainLoop, trainLoopBody, train_step, numOk] using ih _
    | ok v =>
      cases hc : (st.numUpdates + 1) % li == 0 <;> cases d <;>
        simp [trainLoop, trainLoopBody, train_step, numOk, hc,
          List.countP_append, List.countP_cons, isSaveCall, ih _]

lemma trainLoop_count_print (li epoch : Nat) (d : Bool)
    (batches : List StepOutcome) : ∀ st : TrainState,
    ((trainLoop li epoch d st batches).2.countP isPrintTrain) = 0 := by
  induction batches with
  | nil => intro st; simp [trainLoop]
  | cons o rest ih =>
    intro st
    cases o with
    | skip => simpa [trainLoop, trainLoopBody, train_step] using ih _
    | ok v =>
      cases hc : (st.numUpdates + 1) % li == 0 <;> cases d <;>
        simp [trainLoop, trainLoopBody, train_step, hc,
          List.countP_append, List.countP_cons, isPrintTrain, ih _]


lemma trainLoopBody_ok_log {li : Nat} (epoch : Nat) (d : Bool)
    (st : TrainState) (v : Val) (hc : (st.numUpdates + 1) % li = 0) :
    trainLoopBody li epoch d st (.ok v) =
      (⟨st.numUpdates + 1, [], some v⟩,
        [.logInner (st.numUpdates + 1), .resetMeters "train_inner",
          .validateCall epoch, .saveCheckpointCall epoch]
          ++ (if d then [.barrier] else [])) := by
  simp [trainLoopBody, train_step, hc]

lemma trainLoopBody_ok_nolog {li : Nat} (epoch : Nat) (d : Bool)
    (st : TrainState) (v : Val) (hc : ¬((st.numUpdates + 1) % li = 0)) :
    trainLoopBody li epoch d st (.ok v) =
      (⟨st.numUpdates + 1, st.trainInner ++ [st.numUpdates + 1], some v⟩,
        [.validateCall epoch, .saveCheckpointCall epoch]
          ++ (if d then [.barrier] else [])) := by
  simp [trainLoopBody, train_step, hc]

lemma trainLoop_cons (li epoch : Nat) (d : Bool) (st : TrainState)
    (o : StepOutcome) (rest : List StepOutcome) :
    trainLoop li epoch d st (o :: rest) =
      ((trainLoop li epoch d (trainLoopBody li epoch d st o).1 rest).1,
        (trainLoopBody li epoch d st o).2
          ++ (trainLoop li epoch d (trainLoopBody li epoch d st o).1 rest).2) := by
  simp [trainLoop]

lemma trainLoop_logInner_mem (li epoch : Nat) (d : Bool)
    (batches : List StepOutcome) : ∀ (st : TrainState) (u : Nat),
    (Event.logInner u ∈ (trainLoop li epoch d st batches).2 ↔
      (st.numUpdates < u ∧ u ≤ st.numUpdates + numOk batches ∧ u % li = 0)) := by
  induction batches with
  | nil =>
    intro st u
    simp only [trainLoop, List.not_mem_nil, numOk, Nat.add_zero, false_iff]
    intro h
    omega
  | cons o rest ih =>
    intro st u
    cases o with
    | skip => simpa [trainLoop, trainLoopBody, train_step, numOk] using ih st u
    | ok v =>
      rw [trainLoop_cons]
      by_cases hc : (st.numUpdates + 1) % li = 0
      · rw [trainLoopBody_ok_log epoch d st v hc]
        cases d <;>
          (simp only [List.cons_append, List.nil_append, List.mem_append,
            List.mem_cons, List.not_mem_nil, ih, numOk, Event.logInner.injEq,
            if_true, if_false, Bool.false_eq_true, ite_false, ite_true,
            reduceCtorEq, or_false, false_or]
           constructor
           · rintro (rfl | ⟨h1, h2, h3⟩)
             · exact ⟨by omega, by omega, hc⟩
             · exact ⟨by omega, by omega, h3⟩
           · rintro ⟨h1, h2, h3⟩
             by_cases hu : u = st.numUpdates + 1
             · exact Or.inl hu
             · exact Or.inr ⟨by omega, by omega, h3⟩)
      · rw [trainLoopBody_ok_nolog epoch d st v hc]
        cases d <;>
          (simp only [List.cons_append, List.nil_append, List.mem_append,
            List.mem_cons, List.not_mem_nil, ih, numOk, Event.logInner.injEq,
            if_true, if_false, Bool.false_eq_true, ite_false, ite_true,
            reduceCtorEq, or_false, false_or]
           constructor
           · rintro ⟨h1, h2, h3⟩
             exact ⟨by omega, by omega, h3⟩
           · rintro ⟨h1, h2, h3⟩
             by_cases hu : u = st.numUpdates + 1
             · subst hu
               exact absurd h3 hc
             · exact ⟨by omega, by omega, h3⟩)

lemma trainLoop_goodLog (li epoch : Nat) (d : Bool)
    (batches : List StepOutcome) : ∀ (st : TrainState) (tail : List Event),
    goodLog tail = true →
    goodLog ((trainLoop li epoch d st batches).2 ++ tail) = true := by
  induction batches with
  | nil =>
    intro st tail h
    simpa [trainLoop] using h
  | cons o rest ih =>
    intro st tail h
    cases o with
    | skip =>
      simpa [trainLoop_cons, trainLoopBody, train_step] using ih _ tail h
    | ok v =>
      rw [trainLoop_cons]
      by_cases hc : (st.numUpdates + 1) % li = 0
      · rw [trainLoopBody_ok_log epoch d st v hc]
        cases d <;>
          simp [goodLog, List.cons_append, List.nil_append, List.append_assoc,
            ih _ tail h]
      · rw [trainLoopBody_ok_nolog epoch d st v hc]
        cases d <;>
          simp [goodLog, List.cons_append, List.nil_append, List.append_assoc,
            ih _ tail h]

lemma savePairOK_barrier_of_notSave (y : Event) (h : notSave y = true) :
    savePairOK .barrier y = true := by
  cases y <;> simp_all [savePairOK, notSave]

lemma trainLoop_savePair (li epoch : Nat) (batches : List StepOutcome) :
    ∀ (st : TrainState) (tail : List Event),
    List.Chain' (fun a b => savePairOK a b = true) tail →
    tail.head?.all notSave = true →
    (List.Chain' (fun a b => savePairOK a b = true)
        ((trainLoop li epoch true st batches).2 ++ tail) ∧
      ((trainLoop li epoch true st batches).2 ++ tail).head?.all notSave = true) := by
  induction batches with
  | nil =>
    intro st tail h1 h2
    simpa [trainLoop] using ⟨h1, h2⟩
  | cons o rest ih =>
    intro st tail h1 h2
    cases o with
    | skip =>
      simpa [trainLoop_cons, trainLoopBody, train_step] using ih _ tail h1 h2
    | ok v =>
      rw [trainLoop_cons]
      obtain ⟨ihc, ihh⟩ := ih (trainLoopBody li epoch true st (.ok v)).1 tail h1 h2
      by_cases hc : (st.numUpdates + 1) % li = 0
      · rw [trainLoopBody_ok_log epoch true st v hc] at ihc ihh ⊢
        simp only [if_true, List.cons_append, List.nil_append, ite_true]
        constructor
        · rw [List.chain'_cons', List.chain'_cons', List.chain'_cons',
            List.chain'_cons']
          refine ⟨?_, ?_, ?_, ?_, ?_⟩ <;>
            first
            | (intro y hy; simp [List.head?_cons] at hy; subst hy;
               simp [savePairOK])
            | (rw [List.chain'_cons']
               refine ⟨?_, ihc⟩
               intro y hy
               rcases h : ((trainLoop li epoch true
                   (⟨st.numUpdates + 1, [], some v⟩ : TrainState) rest).2
                     ++ tail).head? with _ | z
               · rw [h] at hy; cases hy
               · rw [h] at hy
                 simp only [Option.mem_some_iff] at hy
                 subst hy
                 rw [h] at ihh
                 simp only [Option.all_some] at ihh
                 exact savePairOK_barrier_of_notSave _ ihh)
        · simp [List.head?_cons, notSave]
      · rw [trainLoopBody_ok_nolog epoch true st v hc] at ihc ihh ⊢
        simp only [if_true, List.cons_append, List.nil_append, ite_true]
        constructor
        · rw [List.chain'_cons', List.chain'_cons']
          refine ⟨?_, ?_, ?_⟩ <;>
            first
            | (intro y hy; simp [List.head?_cons] at hy; subst hy;
               simp [savePairOK])
            | (rw [List.chain'_cons']
               refine ⟨?_, ihc⟩
               intro y hy
               rcases h : ((trainLoop li epoch true
                   (⟨st.numUpdates + 1, st.trainInner ++ [st.numUpdates + 1],
                     some v⟩ : TrainState) rest).2 ++ tail).head? with _ | z
               · rw [h] at hy; cases hy
               · rw [h] at hy
                 simp only [Option.mem_some_iff] at hy
                 subst hy
                 rw [h] at ihh
                 simp only [Option.all_some] at ihh
                 exact savePairOK_barrier_of_notSave _ ihh)
        · simp [List.head?_cons, notSave]

lemma trainEpoch_events (li epoch : Nat) (d : Bool) (st : TrainState)
    (batches : List StepOutcome) :
    (trainEpoch li epoch d st batches).2.1 =
      (trainLoop li epoch d st batches).2
        ++ [Event.printTrain epoch, Event.resetMeters "train"] := by
  simp only [trainEpoch]
  cases (trainLoop li epoch d st batches).1.validLoss <;> rfl

lemma trainEpoch_result (li epoch : Nat) (d : Bool) (st : TrainState)
    (batches : List StepOutcome) :
    (trainEpoch li epoch d st batches).2.2 =
      (match (trainLoop li epoch d st batches).1.validLoss with
        | some v => Except.ok v
        | none => Except.error PyError.unboundLocalError) := by
  simp only [trainEpoch]
  cases (trainLoop li epoch d st batches).1.validLoss <;> rfl

/-! ### Claim theorems -/

/-- C4: when `train_step` returns the skip sentinel (`None`), the caller
skips everything inside the `if log_output is not None` block: the skipped
iteration emits no event at all (no `progress.log`, no
`reset_meters("train_inner")`, no `validate`, no `save_checkpoint`), leaves
the whole state unchanged (`num_updates`, the `"train_inner"` accumulators
— so the step never shows up in `get_smoothed_values("train_inner")` — and
`valid_loss`), and the epoch continues with the remaining batches instead
of raising: an epoch starting with a skipped batch is identical to the same
epoch without it. -/
theorem skipped_step_no_effect (li epoch : Nat) (d : Bool) (st : TrainState)
    (rest : List StepOutcome) :
    trainLoopBody li epoch d st .skip = (st, []) ∧
      trainEpoch li epoch d st (.skip :: rest) = trainEpoch li epoch d st rest := by
  constructor
  · rfl
  · simp [trainEpoch, trainLoop, trainLoopBody, train_step]

/-- C8: `train` returns a value only when at least one `train_step` of the
epoch returned a non-`None` log output; with an empty batch iterator or
with every step skipped, the local `valid_loss` is never assigned and the
final `return valid_loss` raises `UnboundLocalError`. -/
theorem train_unbound_valid_loss_iff_no_logged_step (li epoch : Nat)
    (d : Bool) (nu : Nat) (ti : List Nat) (batches : List StepOutcome) :
    ((trainEpoch li epoch d ⟨nu, ti, none⟩ batches).2.2
        = Except.error PyError.unboundLocalError) ↔ numOk batches = 0 := by
  rw [trainEpoch_result, trainLoop_validLoss]
  cases h : lastOkVal batches with
  | none =>
    simp [h, (lastOkVal_none_iff batches).mp h]
  | some v =>
    simp only [h, Option.elim_some]
    constructor
    · intro hx
      cases hx
    · intro hk
      rw [← lastOkVal_none_iff, h] at hk
      cases hk

/-- C10: `main` hands `trainer.lr_step` the value `valid_losses[0]`, where
`valid_losses` is `train`'s return value — the raw `"auroc"` statistic of
the epoch's final `validate` call.  Hence the argument of `lr_step` is
element 0 of that statistic, and if the statistic is a plain float (not
subscriptable) the epoch loop raises a `TypeError`. -/
theorem lr_step_receives_auroc_subscript (li epoch : Nat) (d : Bool)
    (nu : Nat) (ti : List Nat) (batches : List StepOutcome) (v : Val)
    (h : lastOkVal batches = some v) :
    lrStepArg li epoch d ⟨nu, ti, none⟩ batches = subscript0 v ∧
      (∀ q : ℚ, v = .float q →
        lrStepArg li epoch d ⟨nu, ti, none⟩ batches
          = Except.error PyError.typeError) := by
  have h1 : (trainEpoch li epoch d ⟨nu, ti, none⟩ batches).2.2 = Except.ok v := by
    rw [trainEpoch_result, trainLoop_validLoss]
    simp [h]
  constructor
  · simp [lrStepArg, h1]
  · rintro q rfl
    simp [lrStepArg, h1, subscript0]

/-- Witness for C10 at a concrete input: one successful step whose validate
call returned the float 1; the learning-rate step argument computation
raises `TypeError`. -/
theorem lr_step_receives_auroc_subscript_witness :
    lastOkVal [StepOutcome.ok (Val.float 1)] = some (Val.float 1) ∧
      lrStepArg 50 1 true ⟨0, [], none⟩ [StepOutcome.ok (Val.float 1)]
        = Except.error PyError.typeError :=
  ⟨rfl,
    (lr_step_receives_auroc_subscript 50 1 true 0 []
      [StepOutcome.ok (Val.float 1)] (Val.float 1) rfl).2 1 rfl⟩

/-- C2: the claim says `validate` runs exactly once per epoch and
`save_checkpoint` persists only on epochs divisible by `save_interval`.  In
the code both calls sit inside the innermost batch loop: over one epoch the
number of `validate` calls and of `save_checkpoint` calls each equals the
number of non-skipped steps, and in a concrete epoch with two non-skipped
batches `validate` is invoked twice, not once. -/
theorem validate_and_save_called_every_step (li epoch : Nat) (d : Bool)
    (st : TrainState) (batches : List StepOutcome) :
    ((trainEpoch li epoch d st batches).2.1.countP isValidateCall
        = numOk batches) ∧
      ((trainEpoch li epoch d st batches).2.1.countP isSaveCall
        = numOk batches) ∧
      (trainEpoch 50 2 true ⟨0, [], none⟩
          [StepOutcome.ok (Val.float 1), StepOutcome.ok (Val.float 1)]).2.1.countP
        isValidateCall = 2 := by
  refine ⟨?_, ?_, rfl⟩
  · rw [trainEpoch_events]
    simp [List.countP_append, List.countP_cons, isValidateCall,
      trainLoop_count_validate li epoch d batches st]
  · rw [trainEpoch_events]
    simp [List.countP_append, List.countP_cons, isSaveCall,
      trainLoop_count_save li epoch d batches st]

/-- C1: the claim says the epoch loop of `main` runs each epoch once and
terminates after `max_epoch` completed epochs, reaching the "done training"
log line.  The code never increments `epoch_idx` inside the loop, so for
every `max_epoch ≥ 1` and any non-raising loop body, the loop never exits:
after any number of body executions it is still running, and every `train`
call it has made was for epoch 1. -/
theorem main_loop_never_terminates (maxEpoch : Nat)
    (body : Nat → Except PyError Unit) (h : 1 ≤ maxEpoch)
    (hbody : ∀ e, body e = Except.ok ()) :
    ∀ fuel, mainLoop maxEpoch body fuel 1 = (none, List.replicate fuel 1) := by
  intro fuel
  induction fuel with
  | zero => rfl
  | succ n ihn =>
    simp only [mainLoop, if_pos h, hbody, ihn, List.replicate]

/-- Witness for C1: with `max_epoch = 2`, after 3 loop-body executions the
loop is still running and has trained epoch 1 three times. -/
theorem main_loop_never_terminates_witness :
    (1 ≤ 2) ∧ mainLoop 2 (fun _ => Except.ok ()) 3 1 = (none, List.replicate 3 1) :=
  ⟨by decide,
    main_loop_never_terminates 2 (fun _ => Except.ok ()) (by decide) (fun _ => rfl) 3⟩

/-- C7: mid-epoch stats are emitted exactly at the call sites' cadence: a
`progress.log` with tag `"train_inner"` for update count `u` occurs in the
epoch's event trace iff `u` is the `num_updates` value reached by one of
the epoch's non-skipped steps and `u` is divisible by `log_interval`; every
such log event is immediately followed by `reset_meters("train_inner")`;
and the end-of-epoch `progress.print` with tag `"train"` occurs exactly
once per epoch, regardless of the interval. -/
theorem inner_log_cadence_and_epoch_print (li epoch : Nat) (d : Bool)
    (st : TrainState) (batches : List StepOutcome) (u : Nat) (_h : 0 < li) :
    (Event.logInner u ∈ (trainEpoch li epoch d st batches).2.1 ↔
        (st.numUpdates < u ∧ u ≤ st.numUpdates + numOk batches ∧ u % li = 0)) ∧
      goodLog (trainEpoch li epoch d st batches).2.1 = true ∧
      (trainEpoch li epoch d st batches).2.1.countP isPrintTrain = 1 := by
  refine ⟨?_, ?_, ?_⟩
  · rw [trainEpoch_events]
    simp [List.mem_append, trainLoop_logInner_mem li epoch d batches st u]
  · rw [trainEpoch_events]
    exact trainLoop_goodLog li epoch d batches st _ rfl
  · rw [trainEpoch_events]
    simp [List.countP_append, List.countP_cons, isPrintTrain,
      trainLoop_count_print li epoch d batches st]

/-- Witness for C7 at a concrete input: `log_interval 2`, three batches of
which the second is skipped; update count 2 is logged, the trace is
well-formed and the epoch summary appears once. -/
theorem inner_log_cadence_and_epoch_print_witness :
    0 < 2 ∧
      ((Event.logInner 2 ∈ (trainEpoch 2 1 true ⟨0, [], none⟩
            [StepOutcome.ok (Val.float 1), StepOutcome.skip,
              StepOutcome.ok (Val.float 1)]).2.1 ↔
          (0 < 2 ∧ 2 ≤ 0 + numOk [StepOutcome.ok (Val.float 1), StepOutcome.skip,
              StepOutcome.ok (Val.float 1)] ∧ 2 % 2 = 0)) ∧
        goodLog (trainEpoch 2 1 true ⟨0, [], none⟩
          [StepOutcome.ok (Val.float 1), StepOutcome.skip,
            StepOutcome.ok (Val.float 1)]).2.1 = true ∧
        (trainEpoch 2 1 true ⟨0, [], none⟩
          [StepOutcome.ok (Val.float 1), StepOutcome.skip,
            StepOutcome.ok (Val.float 1)]).2.1.countP isPrintTrain = 1) :=
  ⟨by decide,
    inner_log_cadence_and_epoch_print 2 1 true ⟨0, [], none⟩
      [StepOutcome.ok (Val.float 1), StepOutcome.skip,
        StepOutcome.ok (Val.float 1)] 2 (by decide)⟩

/-- C3 counterexample: the claim says every checkpoint write happens only
after a barrier that follows validation.  In the code the order within one
iteration is `validate`, then `save_checkpoint`, then `barrier`: in a
multi-worker epoch with one non-skipped step, the `save_checkpoint` call
has no barrier anywhere before it, so the claimed ordering is violated at
this concrete input. -/
theorem save_before_barrier_counterexample :
    saveGuarded false false
      (trainEpoch 50 1 true ⟨0, [], none⟩ [StepOutcome.ok (Val.float 1)]).2.1
      = false := rfl

/-- C3 amended: in a multi-worker run (distributed initialized), every
`save_checkpoint` call in an epoch's trace is immediately preceded by that
iteration's `validate` call and immediately followed by the barrier — the
barrier comes after the checkpoint write, not between validation and the
write; moreover the trace neither begins nor ends with a checkpoint
write. -/
theorem save_immediately_between_validate_and_barrier (li epoch : Nat)
    (st : TrainState) (batches : List StepOutcome) :
    List.Chain' (fun a b => savePairOK a b = true)
        (trainEpoch li epoch true st batches).2.1 ∧
      (trainEpoch li epoch true st batches).2.1.head?.all notSave = true ∧
      (trainEpoch li epoch true st batches).2.1.getLast?
        = some (Event.resetMeters "train") := by
  have h := trainLoop_savePair li epoch batches st
    [Event.printTrain epoch, Event.resetMeters "train"]
    (by simp [List.chain'_pair, savePairOK]) (by simp [notSave])
  refine ⟨?_, ?_, ?_⟩
  · rw [trainEpoch_events]
    exact h.1
  · rw [trainEpoch_events]
    exact h.2
  · rw [trainEpoch_events]
    rw [show (trainLoop li epoch true st batches).2
        ++ [Event.printTrain epoch, Event.resetMeters "train"]
      = ((trainLoop li epoch true st batches).2 ++ [Event.printTrain epoch])
        ++ [Event.resetMeters "train"] by simp]
    exact List.getLast?_concat _

/-- C6: successive `get_valid_stats` calls report as `best_auroc` the
running maximum of the auroc values seen so far (for the nonnegative values
auroc can take), the reported sequence never decreases, and for the input
sequence [0.70, 0.65, 0.80] the outputs are [0.70, 0.70, 0.80]. -/
theorem best_auroc_running_max (qs : List ℚ) (h : ∀ x ∈ qs, 0 ≤ x) :
    validSeq none qs = specRunningMax qs ∧
      List.Chain' (· ≤ ·) (validSeq none qs) ∧
      validSeq none [7/10, 13/20, 4/5] = [7/10, 7/10, 4/5] := by
  refine ⟨?_, ?_, ?_⟩
  · rw [validSeq_none, validSeq_some_eq_map]
    have h2 : ∀ x ∈ specRunningMax qs, (fun x => max x 0) x = id x := by
      intro x hx
      simp [max_eq_left (specRunningMax_nonneg h x hx)]
    rw [List.map_congr_left h2, List.map_id]
  · rw [validSeq_none]
    exact validSeq_chain qs 0
  · norm_num [validSeq_none, validSeq_some_cons]
    rfl

/-- Witness for C6: the concrete sequence [0.70, 0.65, 0.80] is
nonnegative and its `best_auroc` outputs equal its running maxima. -/
theorem best_auroc_running_max_witness :
    (∀ x ∈ [(7:ℚ)/10, 13/20, 4/5], 0 ≤ x) ∧
      validSeq none [(7:ℚ)/10, 13/20, 4/5]
        = specRunningMax [(7:ℚ)/10, 13/20, 4/5] := by
  have h : ∀ x ∈ [(7:ℚ)/10, 13/20, 4/5], 0 ≤ x := by norm_num
  exact ⟨h, (best_auroc_running_max [(7:ℚ)/10, 13/20, 4/5] h).1⟩

/-- C9: `get_valid_stats` (and through it `validate`) unconditionally
indexes the aggregated validation stats at `"auroc"`: whenever the
validation pass logged no `"auroc"` value, `validate` raises `KeyError`
instead of returning. -/
theorem validate_keyerror_without_auroc (best : Option ℚ) (nu : Nat)
    (smoothed : Stats) (h : smoothed.lookup "auroc" = none) :
    validate best nu smoothed = Except.error PyError.keyError := by
  have h1 : (statsSet smoothed "num_updates"
      (Val.float (nu : ℚ))).lookup "auroc" = none := by
    rw [statsSet_lookup_ne _ _ _ _ (by decide)]
    exact h
  simp [validate, get_valid_stats, statsLookup, h1]

/-- Witness for C9: an empty validation pass yields an empty smoothed
mapping, and `validate` raises `KeyError` on it. -/
theorem validate_keyerror_without_auroc_witness :
    (List.lookup "auroc" ([] : Stats) = none) ∧
      validate none 0 [] = Except.error PyError.keyError :=
  ⟨rfl, validate_keyerror_without_auroc none 0 [] rfl⟩

/-- C5 counterexample: the claim says the best-score baseline used by
`get_valid_stats` survives a process restart with checkpoint reload.  The
baseline is the function attribute `get_valid_stats.best`, which does not
exist in a fresh process and is re-initialized to 0: with a reloaded
checkpoint carrying best score 0.9, the first post-restart call with auroc
0.5 reports `best_auroc` 0.5 (comparison against 0), whereas a surviving
baseline would report 0.9. -/
theorem best_score_lost_on_restart_counterexample :
    load_checkpoint (save_checkpoint ⟨3, 100, 9/10⟩) = some ⟨3, 100, 9/10⟩ ∧
      gvsBest none 100 [("auroc", Val.float (1/2))] = Except.ok (1/2) ∧
      gvsBest (some (9/10)) 100 [("auroc", Val.float (1/2))] = Except.ok (9/10) ∧
      (1/2 : ℚ) ≠ 9/10 := by
  refine ⟨rfl, ?_, ?_, by norm_num⟩ <;>
    (norm_num [gvsBest, get_valid_stats, statsSet, statsLookup, pyMax,
      List.lookup]
     rfl)

/-- C5 amended: `save_checkpoint` followed by `load_checkpoint` restores a
Run snapshot with identical `epoch`, `num_updates` and `best_score`
(round-trip law, checkpoint manager modelled from the spec); but the
best-score comparison baseline of `get_valid_stats` is a function-level
static that a fresh process re-creates as 0, so the first post-restart call
compares against 0, not against the reloaded best score. -/
theorem checkpoint_roundtrip_and_restart_baseline (r : RunSnapshot)
    (q : ℚ) (nu : Nat) :
    load_checkpoint (save_checkpoint r) = some r ∧
      gvsBest none nu [("auroc", Val.float q)] = Except.ok (max q 0) := by
  constructor
  · rfl
  · simp [gvsBest, get_valid_stats, statsSet, statsLookup, pyMax, List.lookup,
      Except.map]
